import Mathlib

/-!
Shallow embedding of the anchorpy program core: the schema-driven namespace
builder (`src/anchorpy/program/core.py`) and the account client
(`src/anchorpy/program/namespace/account.py`), together with the external
collaborators they call (account coder, base58/base64 codecs, zlib inflate
configuration), modelled from the specification where the collaborator's
source is not part of the repository snapshot.

Transport round-trips (`await provider.connection...`) are embedded by
passing the transport's response (or the transport function itself) as an
explicit argument at the suspension point; everything else is a pure
function of its inputs, exactly as in the source.
-/

set_option autoImplicit false

namespace AnchorPy

/-- Model of `solana.publickey.PublicKey` (external collaborator): an opaque
address value. -/
structure PublicKey where
  key : Nat
  deriving DecidableEq, Repr

/-- Modelled from the spec: the wallet half of the transport/signing context;
only its public key is observed by the code under `src/`. -/
structure Wallet where
  public_key : PublicKey
  deriving DecidableEq, Repr

/-- Model of `solana.keypair.Keypair` (external collaborator): only
`signer.public_key` is read by `create_instruction`. -/
structure Keypair where
  public_key : PublicKey
  deriving DecidableEq, Repr

/-- Modelled from the spec: the `Provider` transport/signing context
(`anchorpy.provider`, not in src). It is treated as plain data here; the
transport calls made through its connection are passed explicitly at each
await point. -/
structure Provider where
  wallet : Wallet
  connection_url : String
  deriving DecidableEq, Repr

/-- Modelled from the spec: `Provider.local()`, the process-wide default
provider substituted by `Program.__init__` when the caller passes no
provider (a local-cluster connection with a default wallet). -/
def Provider.local_ : Provider :=
  ⟨⟨⟨0⟩⟩, "http://localhost:8899"⟩

/-- Closed set of fixed-width (and length-prefixed) field types appearing in
an account layout, per spec section 4.1/6. -/
inductive IdlType where
  | bool
  | u8
  | i8
  | u16
  | i16
  | u32
  | i32
  | u64
  | i64
  | u128
  | i128
  | publicKey
  | string
  | bytes
  deriving DecidableEq, Repr

/-- A named, typed field of an account layout. -/
structure IdlField where
  name : String
  ty : IdlType
  deriving DecidableEq, Repr

/-- Model of `_IdlTypeDef`: an account (or named type) definition — a name
and its ordered field layout. -/
structure IdlTypeDef where
  name : String
  fields : List IdlField
  deriving DecidableEq, Repr

/-- Model of an IDL instruction definition: declared name, typed arguments
and account-role names. -/
structure IdlInstruction where
  name : String
  args : List IdlField
  accounts : List String
  deriving DecidableEq, Repr

/-- An IDL error-table entry: numeric code, bare name, optional message. -/
structure IdlErrorCode where
  code : Int
  name : String
  msg : Option String
  deriving DecidableEq, Repr

/-- Model of the parsed `Idl` schema value. -/
structure Idl where
  instructions : List IdlInstruction
  accounts : List IdlTypeDef
  types : List IdlTypeDef
  errors : List IdlErrorCode
  deriving DecidableEq, Repr

/-- Model of `Coder(idl)` (external to src): the program's coder object,
constructed once from the schema. -/
structure Coder where
  idl : Idl
  deriving DecidableEq, Repr

/-! ### Python `dict` semantics

The namespace builder stores its handles in Python dicts.  Assignment
`d[k] = v` replaces the value at an existing key in place, otherwise
appends the new key at the end; lookup returns the entry for the key. -/

/-- Python dict assignment on an association list: replace the first entry
with this key in place, or append a new entry at the end. -/
def dictAssign {κ : Type} {α : Type} [DecidableEq κ] :
    List (κ × α) → κ → α → List (κ × α)
  | [], k, v => [(k, v)]
  | p :: rest, k, v =>
    if p.1 = k then (k, v) :: rest else p :: dictAssign rest k v

/-- Python dict lookup on an association list. -/
def dictGet {κ : Type} {α : Type} [DecidableEq κ] :
    List (κ × α) → κ → Option α
  | [], _ => none
  | p :: rest, k => if p.1 = k then some p.2 else dictGet rest k

/-- The key list of an association-list dict. -/
def dictKeys {κ : Type} {α : Type} (d : List (κ × α)) : List κ :=
  d.map Prod.fst

/-! ### External codecs: base64 and base58

`AccountClient.fetch`, `AccountClient.all` and `Program.fetch_idl` call
`base64.b64decode` on transport payloads, and `AccountClient.all` calls
`base58.b58encode` to render the memcmp filter bytes.  Both are external
collaborators (Python stdlib / base58 package), embedded as executable
functions on byte lists. -/

/-- Value of a character in the standard base64 alphabet. -/
def b64charVal (c : Char) : Option Nat :=
  if 'A' ≤ c ∧ c ≤ 'Z' then some (c.toNat - 65)
  else if 'a' ≤ c ∧ c ≤ 'z' then some (c.toNat - 71)
  else if '0' ≤ c ∧ c ≤ '9' then some (c.toNat + 4)
  else if c = '+' then some 62
  else if c = '/' then some 63
  else none

/-- Decode one base64 quantum of four characters (the last quantum may carry
one or two padding characters). -/
def b64group (a b c d : Char) : Option (List Nat) :=
  match b64charVal a, b64charVal b with
  | some va, some vb =>
    if c = '=' then
      if d = '=' then some [va * 4 + vb / 16] else none
    else
      match b64charVal c with
      | some vc =>
        if d = '=' then some [va * 4 + vb / 16, (vb % 16) * 16 + vc / 4]
        else
          match b64charVal d with
          | some vd =>
            some [va * 4 + vb / 16, (vb % 16) * 16 + vc / 4, (vc % 4) * 64 + vd]
          | none => none
      | none => none
  | _, _ => none

/-- Decode a base64 character stream four characters at a time; the length
must be a multiple of four. -/
def b64chunks : List Char → Option (List Nat)
  | [] => some []
  | a :: b :: c :: d :: rest =>
    match b64group a b c d, b64chunks rest with
    | some xs, some ys => some (xs ++ ys)
    | _, _ => none
  | _ => none

/-- Model of `base64.b64decode`: characters outside the alphabet are
discarded before grouping (Python's default `validate=False` behaviour);
an ill-formed remainder yields `none` (Python raises `binascii.Error`). -/
def b64decode (s : List Char) : Option (List Nat) :=
  b64chunks (s.filter (fun ch => (b64charVal ch).isSome || decide (ch = '=')))

/-- The base58 alphabet used by `base58.b58encode`. -/
def b58Alphabet : List Char :=
  "123456789ABCDEFGHJKLMNPQRSTUVWXYZabcdefghijkmnopqrstuvwxyz".data

/-- Base-58 digit expansion of a natural number (empty for zero). -/
def b58digits (n : Nat) : List Char :=
  if h : n = 0 then []
  else b58digits (n / 58) ++ [b58Alphabet.getD (n % 58) '1']
  termination_by n
  decreasing_by exact Nat.div_lt_self (Nat.pos_of_ne_zero h) (by decide)

/-- Model of `base58.b58encode` on a byte list: one `'1'` per leading zero
byte, then the base-58 digits of the big-endian integer value. -/
def b58encode (data : List Nat) : List Char :=
  let zeros := (data.takeWhile (fun b => b = 0)).length
  let n := data.foldl (fun a b => a * 256 + b) 0
  List.replicate zeros '1' ++ b58digits n

/-! ### Account coder (spec-modelled)

`anchorpy.coder.accounts` and `anchorpy.coder.common` are imported by the
files under `src/` but are not part of the snapshot; they are modelled from
spec sections 3, 4.1 and 4.2. -/

/-- From `anchorpy.coder.accounts`: the fixed discriminator width. -/
def ACCOUNT_DISCRIMINATOR_SIZE : Nat := 8

/-- Modelled from the spec: `account_discriminator(name)`
(`anchorpy.coder.accounts`, not in src) — an 8-byte value deterministically
derived from the account name by a fixed hash of the name, independent of
program address or network.  The concrete hash below is a stand-in for the
source's fixed hashing scheme; every claim depends only on it being a pure
8-byte function of the name. -/
def account_discriminator (name : String) : List Nat :=
  (List.range ACCOUNT_DISCRIMINATOR_SIZE).map
    (fun i => name.data.foldl (fun a c => (a * 131 + c.toNat) % 251) (i * 37 + 11))

/-- Modelled from the spec: the static byte size contributed by one field
type — fixed-width scalars at their width, variable-length fields at their
4-byte length-prefix minimum. -/
def typeSize : IdlType → Nat
  | .bool => 1
  | .u8 => 1
  | .i8 => 1
  | .u16 => 2
  | .i16 => 2
  | .u32 => 4
  | .i32 => 4
  | .u64 => 8
  | .i64 => 8
  | .u128 => 16
  | .i128 => 16
  | .publicKey => 32
  | .string => 4
  | .bytes => 4

/-- Modelled from the spec: `_account_size(idl, idl_account)`
(`anchorpy.coder.common`, not in src) — the statically computed layout size
of the account type, the sum of its field sizes.  The `idl` argument is kept
for call-site fidelity (the source resolves named types through it). -/
def _account_size (idl : Idl) (idl_account : IdlTypeDef) : Nat :=
  (idl_account.fields.map (fun f => typeSize f.ty)).sum

/-- A decoded account container: field name to decoded byte span, in
declaration order (the layout coder's output, spec section 4.1). -/
abbrev Container : Type := List (String × List Nat)

/-- Modelled from the spec: the layout coder's field-by-field decode — each
field consumes exactly its static size, failing when the remaining span is
shorter than the field requires, and never reading past the declared
layout (trailing bytes are ignored). -/
def decodeFields : List IdlField → List Nat → Option Container
  | [], _ => some []
  | f :: fs, data =>
    let n := typeSize f.ty
    if data.length < n then none
    else
      match decodeFields fs (data.drop n) with
      | none => none
      | some rest => some ((f.name, data.take n) :: rest)

/-- Errors surfaced by the account client and account coder (spec section
7): `AccountDoesNotExistError`, `AccountInvalidDiscriminator`,
`LayoutDecodeError`, and the `binascii.Error` raised by `b64decode` on an
ill-formed payload. -/
inductive AnchorError where
  | accountDoesNotExist
  | invalidDiscriminator
  | layoutDecodeError
  | binasciiError
  deriving DecidableEq, Repr

instance {ε α : Type} [DecidableEq ε] [DecidableEq α] :
    DecidableEq (Except ε α) := fun x y =>
  match x, y with
  | .error e, .error e' =>
    if h : e = e' then .isTrue (by rw [h])
    else .isFalse (by intro hc; injection hc; contradiction)
  | .ok a, .ok b =>
    if h : a = b then .isTrue (by rw [h])
    else .isFalse (by intro hc; injection hc; contradiction)
  | .error _, .ok _ => .isFalse (by intro hc; injection hc)
  | .ok _, .error _ => .isFalse (by intro hc; injection hc)

/-- Modelled from the spec: the account coder's
`decode(account_name, bytes)` (`anchorpy.coder.accounts`, not in src) —
fails with `AccountInvalidDiscriminator` if `bytes[0:8]` does not equal
`discriminator_for(account_name)`, otherwise delegates the remainder to the
layout coder, which fails with `LayoutDecodeError` when the span is shorter
than the layout requires. -/
def accounts_coder_decode (idl_account : IdlTypeDef) (data : List Nat) :
    Except AnchorError Container :=
  if data.take ACCOUNT_DISCRIMINATOR_SIZE ≠ account_discriminator idl_account.name then
    .error .invalidDiscriminator
  else
    match decodeFields idl_account.fields (data.drop ACCOUNT_DISCRIMINATOR_SIZE) with
    | none => .error .layoutDecodeError
    | some cont => .ok cont

/-! ### Account client (`src/anchorpy/program/namespace/account.py`) -/

/-- Model of `solana.rpc.types.MemcmpOpts`: a byte-comparison filter for
`get_program_accounts`, holding an offset and the base58-rendered bytes. -/
structure MemcmpOpts where
  offset : Nat
  bytes : List Char
  deriving DecidableEq, Repr

/-- A deserialized account owned by a program (`ProgramAccount` dataclass). -/
structure ProgramAccount where
  public_key : PublicKey
  account : Container
  deriving DecidableEq, Repr

/-- One record of a `get_program_accounts` response: the account's address
(already parsed to a `PublicKey`, as `PublicKey(r["pubkey"])` does) and its
base64-encoded data string `r["account"]["data"][0]`. -/
structure RpcKeyedAccount where
  pubkey : PublicKey
  data : List Char
  deriving DecidableEq, Repr

/-- Model of `solana.system_program.CreateAccountParams`. -/
structure CreateAccountParams where
  from_pubkey : PublicKey
  new_account_pubkey : PublicKey
  space : Int
  lamports : Int
  program_id : PublicKey
  deriving DecidableEq, Repr

/-- Model of a `solana.transaction.TransactionInstruction` produced by the
external `create_account` system-program helper: it is fully determined by
the parameters it was built from. -/
structure TransactionInstruction where
  params : CreateAccountParams
  deriving DecidableEq, Repr

/-- Model of `solana.system_program.create_account` (external collaborator):
wraps the parameters into the account-creation instruction, submitting
nothing. -/
def create_account (params : CreateAccountParams) : TransactionInstruction :=
  ⟨params⟩

/-- The `AccountClient` state captured by `AccountClient.__init__`
(account.py lines 64-85). -/
structure AccountClient where
  _idl_account : IdlTypeDef
  _program_id : PublicKey
  _provider : Provider
  _coder : Coder
  _size : Nat
  deriving DecidableEq, Repr

/-- `AccountClient.__init__`: stores the account definition, program id,
provider and coder, and computes
`_size = ACCOUNT_DISCRIMINATOR_SIZE + _account_size(idl, idl_account)`. -/
def AccountClient.init (idl : Idl) (idl_account : IdlTypeDef) (coder : Coder)
    (program_id : PublicKey) (provider : Provider) : AccountClient :=
  ⟨idl_account, program_id, provider, coder,
    ACCOUNT_DISCRIMINATOR_SIZE + _account_size idl idl_account⟩

/-- The `size` property: the number of bytes in this account. -/
def AccountClient.size (c : AccountClient) : Nat :=
  c._size

/-- `AccountClient.fetch` (account.py lines 87-108).  The transport
round-trip `get_account_info(address)` is embedded by passing its result:
`none` when the RPC response's `value` is null, otherwise the base64 data
string `value["data"][0]`.  The body then follows the source exactly: a
missing value raises `AccountDoesNotExistError`; the data is base64-decoded;
the account discriminator is compared against the first
`ACCOUNT_DISCRIMINATOR_SIZE` bytes before anything is decoded, raising
`AccountInvalidDiscriminator` on mismatch; finally the full data is
delegated to the account coder's decode. -/
def AccountClient.fetch (c : AccountClient) (account_info_value : Option (List Char)) :
    Except AnchorError Container :=
  match account_info_value with
  | none => .error .accountDoesNotExist
  | some b64data =>
    match b64decode b64data with
    | none => .error .binasciiError
    | some data =>
      let discriminator := account_discriminator c._idl_account.name
      if discriminator ≠ data.take ACCOUNT_DISCRIMINATOR_SIZE then
        .error .invalidDiscriminator
      else
        accounts_coder_decode c._idl_account data

/-- `AccountClient.create_instruction` (account.py lines 110-138).  The
rent-exemption query
`get_minimum_balance_for_rent_exemption(space)` is embedded as the explicit
transport function `rent`.  `space` follows Python truthiness:
`size_override if size_override else self._size` uses the override exactly
when it is nonzero (negative values included). -/
def AccountClient.create_instruction (c : AccountClient) (rent : Int → Int)
    (signer : Keypair) (size_override : Int := 0) : TransactionInstruction :=
  let space : Int := if size_override ≠ 0 then size_override else (c._size : Int)
  let mbre_resp := rent space
  create_account
    ⟨c._provider.wallet.public_key, signer.public_key, space, mbre_resp,
      c._program_id⟩

/-- The filter list built by `AccountClient.all` (account.py lines 155-164):
the base offset-0 memcmp filter over
`discriminator` or `discriminator + buffer`, rendered through `b58encode`,
followed by the caller's extra memcmp filters in their order. -/
def AccountClient.all_memcmp_opts (c : AccountClient) (buffer : Option (List Nat))
    (memcmp_opts : Option (List MemcmpOpts)) : List MemcmpOpts :=
  let discriminator := account_discriminator c._idl_account.name
  let to_encode := match buffer with
    | none => discriminator
    | some b => discriminator ++ b
  let bytes_arg := b58encode to_encode
  let base_memcmp_opt : MemcmpOpts := ⟨0, bytes_arg⟩
  let extra_memcmpm_opts := match memcmp_opts with
    | none => []
    | some opts => opts
  [base_memcmp_opt] ++ extra_memcmpm_opts

/-- Decoding of one `get_program_accounts` record inside the loop of
`AccountClient.all` (account.py lines 172-180): base64-decode the record's
data and decode it with the account coder, pairing the result with the
record's public key. -/
def AccountClient.decode_record (c : AccountClient) (r : RpcKeyedAccount) :
    Except AnchorError ProgramAccount :=
  match b64decode r.data with
  | none => .error .binasciiError
  | some account_data =>
    match accounts_coder_decode c._idl_account account_data with
    | .error e => .error e
    | .ok cont => .ok ⟨r.pubkey, cont⟩

/-- The decoding loop of `AccountClient.all`: records are decoded in
response order and appended one by one; a raising decode aborts the whole
call with that record's error. -/
def AccountClient.all_decode (c : AccountClient) :
    List RpcKeyedAccount → Except AnchorError (List ProgramAccount)
  | [] => .ok []
  | r :: rest =>
    match c.decode_record r with
    | .error e => .error e
    | .ok pa =>
      match c.all_decode rest with
      | .error e => .error e
      | .ok tail => .ok (pa :: tail)

/-- `AccountClient.all` (account.py lines 140-181).  The batched transport
call `get_program_accounts(program_id, ..., data_size, memcmp_opts)` is
embedded as the explicit function `get_program_accounts` receiving the
filter list and data-size option and returning the response records, which
are then decoded in order. -/
def AccountClient.all (c : AccountClient)
    (get_program_accounts : List MemcmpOpts → Option Int → List RpcKeyedAccount)
    (buffer : Option (List Nat) := none)
    (memcmp_opts : Option (List MemcmpOpts) := none)
    (data_size : Option Int := none) :
    Except AnchorError (List ProgramAccount) :=
  let full_memcmp_opts := c.all_memcmp_opts buffer memcmp_opts
  let resp := get_program_accounts full_memcmp_opts data_size
  c.all_decode resp

/-! ### Namespace builder (`src/anchorpy/program/core.py`) -/

/-- Modelled from the spec: `InstructionFn`
(`anchorpy.program.namespace.instruction`, not in src) — the
instruction-builder handle constructed as
`InstructionFn(idl_ix, coder.instruction.build, program_id)`.  It holds the
instruction definition and program id; the middle argument is the
instruction coder's bound build function, a callback into the external
coder rather than data. -/
structure InstructionFn where
  idl_ix : IdlInstruction
  program_id : PublicKey
  deriving DecidableEq, Repr

/-- Modelled from the spec: `TransactionFn`
(`anchorpy.program.namespace.transaction`, not in src) — the
transaction-builder handle, wrapping the one instruction-builder instance
it was built from. -/
structure TransactionFn where
  idl_ix : IdlInstruction
  ix_fn : InstructionFn
  deriving DecidableEq, Repr

/-- Modelled from the spec: `RpcFn` (`anchorpy.program.namespace.rpc`, not
in src) — the request-submitter handle, wrapping the transaction-builder
and carrying the parsed error table and provider. -/
structure RpcFn where
  idl_ix : IdlInstruction
  tx_fn : TransactionFn
  idl_errors : List (Int × String)
  provider : Provider
  deriving DecidableEq, Repr

/-- Modelled from the spec: `SimulateFn`
(`anchorpy.program.namespace.simulate`, not in src) — the simulation-runner
handle, wrapping the transaction-builder and carrying the error table,
provider, coder, program id and schema. -/
structure SimulateFn where
  idl_ix : IdlInstruction
  tx_fn : TransactionFn
  idl_errors : List (Int × String)
  provider : Provider
  coder : Coder
  program_id : PublicKey
  idl : Idl
  deriving DecidableEq, Repr

/-- Modelled from the spec: `build_transaction_fn(idl_ix, ix_item)`. -/
def build_transaction_fn (idl_ix : IdlInstruction) (ix_item : InstructionFn) :
    TransactionFn :=
  ⟨idl_ix, ix_item⟩

/-- Modelled from the spec:
`build_rpc_item(idl_ix, tx_item, idl_errors, provider)`. -/
def build_rpc_item (idl_ix : IdlInstruction) (tx_item : TransactionFn)
    (idl_errors : List (Int × String)) (provider : Provider) : RpcFn :=
  ⟨idl_ix, tx_item, idl_errors, provider⟩

/-- Modelled from the spec: `build_simulate_item(idl_ix, tx_item,
idl_errors, provider, coder, program_id, idl)`. -/
def build_simulate_item (idl_ix : IdlInstruction) (tx_item : TransactionFn)
    (idl_errors : List (Int × String)) (provider : Provider) (coder : Coder)
    (program_id : PublicKey) (idl : Idl) : SimulateFn :=
  ⟨idl_ix, tx_item, idl_errors, provider, coder, program_id, idl⟩

/-- `_parse_idl_errors(idl)` (core.py lines 37-50): map each error code to
its message when one is supplied (Python truthiness: an empty message also
falls back to the bare name). -/
def _parse_idl_errors (idl : Idl) : List (Int × String) :=
  idl.errors.foldl
    (fun errors e =>
      let msg := match e.msg with
        | some m => if m = "" then e.name else m
        | none => e.name
      dictAssign errors e.code msg)
    []

/-- `build_account(idl, coder, program_id, provider)` (account.py lines
21-42): one `AccountClient` per declared account type, keyed by name. -/
def build_account (idl : Idl) (coder : Coder) (program_id : PublicKey)
    (provider : Provider) : List (String × AccountClient) :=
  idl.accounts.foldl
    (fun accounts_fns idl_account =>
      dictAssign accounts_fns idl_account.name
        (AccountClient.init idl idl_account coder program_id provider))
    []

/-- Modelled from the spec: `build_types(idl)`
(`anchorpy.program.namespace.types`, not in src) — the named-type
namespace, keyed by declared type name. -/
def build_types (idl : Idl) : List (String × IdlTypeDef) :=
  idl.types.foldl (fun d t => dictAssign d t.name t) []

/-- The four dicts accumulated by the instruction loop of
`_build_namespace` (core.py lines 79-103). -/
structure NamespaceAcc where
  rpc : List (String × RpcFn)
  instruction : List (String × InstructionFn)
  transaction : List (String × TransactionFn)
  simulate : List (String × SimulateFn)
  deriving Repr

/-- One iteration of the loop `for idl_ix in idl.instructions` in
`_build_namespace` (core.py lines 84-103): build the four aligned handles
from the single `ix_item` and register each under `idl_ix.name`. -/
def nsStep (idl : Idl) (coder : Coder) (program_id : PublicKey)
    (provider : Provider) (idl_errors : List (Int × String))
    (acc : NamespaceAcc) (idl_ix : IdlInstruction) : NamespaceAcc :=
  let ix_item := InstructionFn.mk idl_ix program_id
  let tx_item := build_transaction_fn idl_ix ix_item
  let rpc_item := build_rpc_item idl_ix tx_item idl_errors provider
  let simulate_item :=
    build_simulate_item idl_ix tx_item idl_errors provider coder program_id idl
  let name := idl_ix.name
  ⟨dictAssign acc.rpc name rpc_item,
    dictAssign acc.instruction name ix_item,
    dictAssign acc.transaction name tx_item,
    dictAssign acc.simulate name simulate_item⟩

/-- The tuple returned by `_build_namespace` (core.py line 107), as a named
record. -/
structure ProgramNamespaces where
  rpc : List (String × RpcFn)
  instruction : List (String × InstructionFn)
  transaction : List (String × TransactionFn)
  account : List (String × AccountClient)
  simulate : List (String × SimulateFn)
  types : List (String × IdlTypeDef)
  deriving Repr

/-- `_build_namespace(idl, coder, program_id, provider)` (core.py lines
53-107): parse the error table, run the instruction loop over empty dicts,
then attach the account namespace (empty when the schema declares no
accounts) and the type namespace. -/
def _build_namespace (idl : Idl) (coder : Coder) (program_id : PublicKey)
    (provider : Provider) : ProgramNamespaces :=
  let idl_errors := _parse_idl_errors idl
  let final := idl.instructions.foldl
    (nsStep idl coder program_id provider idl_errors) ⟨[], [], [], []⟩
  let account :=
    if idl.accounts.isEmpty then []
    else build_account idl coder program_id provider
  let types := build_types idl
  ⟨final.rpc, final.instruction, final.transaction, account, final.simulate,
    types⟩

/-! ### Program facade and IDL bootstrap (`src/anchorpy/program/core.py`) -/

/-- The compression container formats selectable through
`zlib.decompressobj`'s `wbits` argument. -/
inductive InflateFormat where
  | zlib
  | raw
  | gzip
  | autoDetect
  deriving DecidableEq, Repr

/-- An inflate configuration: container format plus window size. -/
structure InflateConfig where
  format : InflateFormat
  windowBits : Nat
  deriving DecidableEq, Repr

/-- Model of `zlib.decompressobj(wbits)` (external collaborator), per the
zlib convention: positive 9..15 selects zlib format (header and trailer
present) at that window size; a negative value selects raw deflate (no
header) at window size `-wbits`; 25..31 selects gzip; 32..47 selects
automatic zlib/gzip detection. -/
def zlib_decompressobj (wbits : Int) : InflateConfig :=
  if wbits < 0 then ⟨.raw, (-wbits).toNat⟩
  else if wbits ≤ 15 then ⟨.zlib, wbits.toNat⟩
  else if wbits ≤ 31 then ⟨.gzip, (wbits - 16).toNat⟩
  else ⟨.autoDetect, (wbits - 32).toNat⟩

/-- A decompression request issued to the external zlib collaborator: the
configuration of the decompress object and the input handed to
`decompress` (followed by `flush`). -/
structure InflateRequest where
  config : InflateConfig
  input : List Nat
  deriving DecidableEq, Repr

/-- `_pako_inflate(data)` (core.py lines 110-115): decompress `data` with
`zlib.decompressobj(15)`.  The external decompression itself is modelled as
the request it issues: its configuration and input. -/
def _pako_inflate (data : List Nat) : InflateRequest :=
  ⟨zlib_decompressobj 15, data⟩

/-- Modelled from the spec: `decode_idl_account` (`anchorpy.idl`, not in
src) parses the on-chain IDL account record from the post-discriminator
bytes and exposes its compressed `data` field; the spec describes this step
as decompressing "the remainder" after the 8-byte strip, so it is modelled
as passing the remainder through unchanged. -/
def decode_idl_account (raw : List Nat) : List Nat :=
  raw

/-- Errors raised by `Program.fetch_idl`: `IdlNotFoundError` when the IDL
account is absent, or `binascii.Error` from `b64decode` on an ill-formed
payload. -/
inductive IdlFetchError where
  | idlNotFound
  | binasciiError
  deriving DecidableEq, Repr

/-- The observable outcome of a successful `Program.fetch_idl` run up to
its external decompression/parsing collaborators: the bytes remaining after
the 8-byte discriminator strip, and the decompression request issued for
the decoded IDL account's data. -/
structure IdlFetchOk where
  stripped : List Nat
  inflate : InflateRequest
  deriving DecidableEq, Repr

/-- `Program.fetch_idl` (core.py lines 181-210).  The transport round-trip
`get_account_info(idl_addr)` at the derived IDL address is embedded by
passing the response's `value`: `none` when null (raising
`IdlNotFoundError`), otherwise the base64 data payload.  On success the
payload is base64-decoded, the first `ACCOUNT_DISCRIMINATOR_SIZE` bytes are
stripped, the remainder is decoded as the IDL account record and its data
is handed to `_pako_inflate`. -/
def Program.fetch_idl (account_info_value : Option (List Char)) :
    Except IdlFetchError IdlFetchOk :=
  match account_info_value with
  | none => .error .idlNotFound
  | some raw =>
    match b64decode raw with
    | none => .error .binasciiError
    | some decoded =>
      let stripped := decoded.drop ACCOUNT_DISCRIMINATOR_SIZE
      let idl_account := decode_idl_account stripped
      .ok ⟨stripped, _pako_inflate idl_account⟩

/-- The `Program` facade state assembled by `Program.__init__` (core.py
lines 132-166). -/
structure Program where
  idl : Idl
  program_id : PublicKey
  provider : Provider
  coder : Coder
  rpc : List (String × RpcFn)
  instruction : List (String × InstructionFn)
  transaction : List (String × TransactionFn)
  account : List (String × AccountClient)
  simulate : List (String × SimulateFn)
  type : List (String × IdlTypeDef)

/-- `Program.__init__(idl, program_id, provider=None)` (core.py lines
132-166): resolve the provider as
`provider if provider is not None else Provider.local()`, build the coder,
generate all namespaces with `_build_namespace`, and store everything. -/
def Program.init (idl : Idl) (program_id : PublicKey)
    (provider : Option Provider := none) : Program :=
  let prov := match provider with
    | some p => p
    | none => Provider.local_
  let coder : Coder := ⟨idl⟩
  let ns := _build_namespace idl coder program_id prov
  ⟨idl, program_id, prov, coder, ns.rpc, ns.instruction, ns.transaction,
    ns.account, ns.simulate, ns.types⟩

/-! ### Verification helpers

Specification-side views of the instruction loop, used to reason about the
four namespace dicts uniformly. -/

/-- The instruction loop specialised to a single namespace: register
`f idl_ix` under `idl_ix.name` for each instruction in order. -/
def nsFold {α : Type} (f : IdlInstruction → α) (instrs : List IdlInstruction)
    (d : List (String × α)) : List (String × α) :=
  instrs.foldl (fun acc ix => dictAssign acc ix.name (f ix)) d

/-- The last instruction in the list bearing the given declared name — the
definition whose registration survives Python dict overwriting. -/
def lastNamed (k : String) : List IdlInstruction → Option IdlInstruction
  | [] => none
  | ix :: rest =>
    match lastNamed k rest with
    | some j => some j
    | none => if ix.name = k then some ix else none

/-! ### Concrete fixtures

A small schema in the style of the spec's end-to-end scenarios, used to
evaluate the definitions at concrete inputs. -/

/-- Scenario instruction: `initialize` with no arguments and one account
role. -/
def demoIx : IdlInstruction := ⟨"initialize", [], ["counter"]⟩

/-- Scenario account type: `Counter` with one 8-byte unsigned field. -/
def counterAcct : IdlTypeDef := ⟨"Counter", [⟨"count", IdlType.u64⟩]⟩

/-- Scenario schema holding the instruction and account type above. -/
def demoIdl : Idl := ⟨[demoIx], [counterAcct], [], []⟩

/-- A concrete program address. -/
def demoPid : PublicKey := ⟨7⟩

/-- A concrete provider with a distinguishable wallet. -/
def demoProvider : Provider := ⟨⟨⟨3⟩⟩, "http://demo"⟩

/-- The coder for the scenario schema. -/
def demoCoder : Coder := ⟨demoIdl⟩

/-- The account client for the `Counter` account type. -/
def demoClient : AccountClient :=
  AccountClient.init demoIdl counterAcct demoCoder demoPid demoProvider

end AnchorPy

namespace AnchorPy

/-! ### Lemmas: Python dict semantics -/

theorem dictGet_dictAssign_self {κ α : Type} [DecidableEq κ]
    (d : List (κ × α)) (k : κ) (v : α) :
    dictGet (dictAssign d k v) k = some v := by
  induction d with
  | nil => simp [dictAssign, dictGet]
  | cons p rest ih =>
    by_cases h : p.1 = k
    · simp [dictAssign, dictGet, h]
    · simp [dictAssign, dictGet, h, ih]

theorem dictGet_dictAssign_ne {κ α : Type} [DecidableEq κ]
    (d : List (κ × α)) (k k' : κ) (v : α) (hne : k' ≠ k) :
    dictGet (dictAssign d k v) k' = dictGet d k' := by
  have hkk' : ¬ k = k' := fun hh => hne hh.symm
  induction d with
  | nil => simp [dictAssign, dictGet, hkk']
  | cons p rest ih =>
    by_cases h : p.1 = k
    · have hp : ¬ p.1 = k' := by
        rw [h]
        exact hkk'
      simp [dictAssign, dictGet, h, hp, hkk']
    · by_cases h' : p.1 = k'
      · simp [dictAssign, dictGet, h, h', hne]
      · simp [dictAssign, dictGet, h, h', ih]

theorem dictKeys_cons {κ α : Type} (p : κ × α) (rest : List (κ × α)) :
    dictKeys (p :: rest) = p.1 :: dictKeys rest := rfl

theorem dictKeys_dictAssign {κ α : Type} [DecidableEq κ]
    (d : List (κ × α)) (k : κ) (v : α) :
    dictKeys (dictAssign d k v) =
      if k ∈ dictKeys d then dictKeys d else dictKeys d ++ [k] := by
  induction d with
  | nil => simp [dictAssign, dictKeys]
  | cons p rest ih =>
    by_cases h : p.1 = k
    · simp [dictAssign, dictKeys, h]
    · have hk : ¬ k = p.1 := fun hh => h hh.symm
      have hstep : dictKeys (dictAssign (p :: rest) k v) =
          p.1 :: dictKeys (dictAssign rest k v) := by
        simp [dictAssign, dictKeys, h]
      rw [hstep, ih]
      by_cases hmem : k ∈ dictKeys rest
      · rw [if_pos hmem,
          if_pos (by rw [dictKeys_cons]; exact List.mem_cons_of_mem _ hmem)]
        rw [dictKeys_cons]
      · have hnot : k ∉ dictKeys (p :: rest) := by
          rw [dictKeys_cons]
          intro hcontra
          rcases List.mem_cons.mp hcontra with hh | hh
          · exact hk hh
          · exact hmem hh
        rw [if_neg hmem, if_neg hnot, dictKeys_cons, List.cons_append]

theorem mem_dictKeys_dictAssign {κ α : Type} [DecidableEq κ]
    (d : List (κ × α)) (k k' : κ) (v : α) :
    k' ∈ dictKeys (dictAssign d k v) ↔ k' ∈ dictKeys d ∨ k' = k := by
  rw [dictKeys_dictAssign]
  by_cases hmem : k ∈ dictKeys d
  · simp only [hmem, if_true]
    constructor
    · exact fun h => Or.inl h
    · rintro (h | h)
      · exact h
      · exact h ▸ hmem
  · simp [hmem]

theorem nodup_dictKeys_dictAssign {κ α : Type} [DecidableEq κ]
    (d : List (κ × α)) (k : κ) (v : α) (hd : (dictKeys d).Nodup) :
    (dictKeys (dictAssign d k v)).Nodup := by
  rw [dictKeys_dictAssign]
  by_cases hmem : k ∈ dictKeys d
  · simpa [hmem] using hd
  · simp only [hmem, if_false]
    rw [List.nodup_append]
    refine ⟨hd, List.nodup_singleton k, ?_⟩
    intro a ha hb
    rw [List.mem_singleton] at hb
    subst hb
    exact hmem ha

/-! ### Lemmas: the namespace fold -/

theorem nsFold_nil {α : Type} (f : IdlInstruction → α) (d : List (String × α)) :
    nsFold f [] d = d := rfl

theorem nsFold_cons {α : Type} (f : IdlInstruction → α) (ix : IdlInstruction)
    (rest : List IdlInstruction) (d : List (String × α)) :
    nsFold f (ix :: rest) d = nsFold f rest (dictAssign d ix.name (f ix)) := rfl

theorem dictGet_nsFold {α : Type} (f : IdlInstruction → α)
    (instrs : List IdlInstruction) (d : List (String × α)) (k : String) :
    dictGet (nsFold f instrs d) k =
      match lastNamed k instrs with
      | some j => some (f j)
      | none => dictGet d k := by
  induction instrs generalizing d with
  | nil => rfl
  | cons ix rest ih =>
    rw [nsFold_cons, ih]
    cases hrest : lastNamed k rest with
    | some j => simp [lastNamed, hrest]
    | none =>
      by_cases h : ix.name = k
      · subst h
        simp [lastNamed, hrest, dictGet_dictAssign_self]
      · simp [lastNamed, hrest, h, dictGet_dictAssign_ne d ix.name k (f ix) (fun hh => h hh.symm)]

theorem dictKeys_nsFold_congr {α β : Type} (f : IdlInstruction → α)
    (g : IdlInstruction → β) (instrs : List IdlInstruction)
    (d₁ : List (String × α)) (d₂ : List (String × β))
    (h : dictKeys d₁ = dictKeys d₂) :
    dictKeys (nsFold f instrs d₁) = dictKeys (nsFold g instrs d₂) := by
  induction instrs generalizing d₁ d₂ with
  | nil => simpa [nsFold_nil]
  | cons ix rest ih =>
    rw [nsFold_cons, nsFold_cons]
    exact ih _ _ (by rw [dictKeys_dictAssign, dictKeys_dictAssign, h])

theorem mem_dictKeys_nsFold {α : Type} (f : IdlInstruction → α)
    (instrs : List IdlInstruction) (d : List (String × α)) (k : String) :
    k ∈ dictKeys (nsFold f instrs d) ↔
      k ∈ dictKeys d ∨ k ∈ instrs.map IdlInstruction.name := by
  induction instrs generalizing d with
  | nil => simp [nsFold_nil]
  | cons ix rest ih =>
    rw [nsFold_cons, ih]
    rw [mem_dictKeys_dictAssign]
    simp only [List.map_cons, List.mem_cons]
    tauto

theorem nodup_dictKeys_nsFold {α : Type} (f : IdlInstruction → α)
    (instrs : List IdlInstruction) (d : List (String × α))
    (hd : (dictKeys d).Nodup) :
    (dictKeys (nsFold f instrs d)).Nodup := by
  induction instrs generalizing d with
  | nil => simpa [nsFold_nil]
  | cons ix rest ih =>
    rw [nsFold_cons]
    exact ih _ (nodup_dictKeys_dictAssign _ _ _ hd)

theorem lastNamed_name (k : String) (instrs : List IdlInstruction)
    (j : IdlInstruction) (h : lastNamed k instrs = some j) : j.name = k := by
  induction instrs with
  | nil => simp [lastNamed] at h
  | cons ix rest ih =>
    simp only [lastNamed] at h
    cases hrest : lastNamed k rest with
    | some j' =>
      rw [hrest] at h
      simp only [Option.some.injEq] at h
      subst h
      exact ih hrest
    | none =>
      rw [hrest] at h
      by_cases hn : ix.name = k
      · simp only [hn, if_true, Option.some.injEq] at h
        subst h
        exact hn
      · simp [hn] at h

theorem lastNamed_append (k : String) (l r : List IdlInstruction) :
    lastNamed k (l ++ r) =
      match lastNamed k r with
      | some j => some j
      | none => lastNamed k l := by
  induction l with
  | nil =>
    cases h : lastNamed k r <;> simp [lastNamed, h]
  | cons ix rest ih =>
    rw [List.cons_append]
    simp only [lastNamed]
    rw [ih]
    cases lastNamed k r <;> cases lastNamed k rest <;> simp

/-! ### Lemmas: the instruction loop of `_build_namespace`, one namespace at
a time -/

theorem foldl_nsStep_instruction (idl : Idl) (coder : Coder)
    (program_id : PublicKey) (provider : Provider)
    (idl_errors : List (Int × String)) (instrs : List IdlInstruction)
    (acc : NamespaceAcc) :
    (instrs.foldl (nsStep idl coder program_id provider idl_errors) acc).instruction =
      nsFold (fun ix => InstructionFn.mk ix program_id) instrs acc.instruction := by
  induction instrs generalizing acc with
  | nil => rfl
  | cons ix rest ih =>
    rw [List.foldl_cons, ih, nsFold_cons]
    rfl

theorem foldl_nsStep_transaction (idl : Idl) (coder : Coder)
    (program_id : PublicKey) (provider : Provider)
    (idl_errors : List (Int × String)) (instrs : List IdlInstruction)
    (acc : NamespaceAcc) :
    (instrs.foldl (nsStep idl coder program_id provider idl_errors) acc).transaction =
      nsFold (fun ix => build_transaction_fn ix (InstructionFn.mk ix program_id))
        instrs acc.transaction := by
  induction instrs generalizing acc with
  | nil => rfl
  | cons ix rest ih =>
    rw [List.foldl_cons, ih, nsFold_cons]
    rfl

theorem foldl_nsStep_rpc (idl : Idl) (coder : Coder)
    (program_id : PublicKey) (provider : Provider)
    (idl_errors : List (Int × String)) (instrs : List IdlInstruction)
    (acc : NamespaceAcc) :
    (instrs.foldl (nsStep idl coder program_id provider idl_errors) acc).rpc =
      nsFold (fun ix =>
          build_rpc_item ix (build_transaction_fn ix (InstructionFn.mk ix program_id))
            idl_errors provider)
        instrs acc.rpc := by
  induction instrs generalizing acc with
  | nil => rfl
  | cons ix rest ih =>
    rw [List.foldl_cons, ih, nsFold_cons]
    rfl

theorem foldl_nsStep_simulate (idl : Idl) (coder : Coder)
    (program_id : PublicKey) (provider : Provider)
    (idl_errors : List (Int × String)) (instrs : List IdlInstruction)
    (acc : NamespaceAcc) :
    (instrs.foldl (nsStep idl coder program_id provider idl_errors) acc).simulate =
      nsFold (fun ix =>
          build_simulate_item ix
            (build_transaction_fn ix (InstructionFn.mk ix program_id))
            idl_errors provider coder program_id idl)
        instrs acc.simulate := by
  induction instrs generalizing acc with
  | nil => rfl
  | cons ix rest ih =>
    rw [List.foldl_cons, ih, nsFold_cons]
    rfl

theorem build_namespace_instruction (idl : Idl) (coder : Coder)
    (program_id : PublicKey) (provider : Provider) :
    (_build_namespace idl coder program_id provider).instruction =
      nsFold (fun ix => InstructionFn.mk ix program_id) idl.instructions [] := by
  simpa [_build_namespace] using
    foldl_nsStep_instruction idl coder program_id provider
      (_parse_idl_errors idl) idl.instructions ⟨[], [], [], []⟩

theorem build_namespace_transaction (idl : Idl) (coder : Coder)
    (program_id : PublicKey) (provider : Provider) :
    (_build_namespace idl coder program_id provider).transaction =
      nsFold (fun ix => build_transaction_fn ix (InstructionFn.mk ix program_id))
        idl.instructions [] := by
  simpa [_build_namespace] using
    foldl_nsStep_transaction idl coder program_id provider
      (_parse_idl_errors idl) idl.instructions ⟨[], [], [], []⟩

theorem build_namespace_rpc (idl : Idl) (coder : Coder)
    (program_id : PublicKey) (provider : Provider) :
    (_build_namespace idl coder program_id provider).rpc =
      nsFold (fun ix =>
          build_rpc_item ix (build_transaction_fn ix (InstructionFn.mk ix program_id))
            (_parse_idl_errors idl) provider)
        idl.instructions [] := by
  simpa [_build_namespace] using
    foldl_nsStep_rpc idl coder program_id provider
      (_parse_idl_errors idl) idl.instructions ⟨[], [], [], []⟩

theorem build_namespace_simulate (idl : Idl) (coder : Coder)
    (program_id : PublicKey) (provider : Provider) :
    (_build_namespace idl coder program_id provider).simulate =
      nsFold (fun ix =>
          build_simulate_item ix
            (build_transaction_fn ix (InstructionFn.mk ix program_id))
            (_parse_idl_errors idl) provider coder program_id idl)
        idl.instructions [] := by
  simpa [_build_namespace] using
    foldl_nsStep_simulate idl coder program_id provider
      (_parse_idl_errors idl) idl.instructions ⟨[], [], [], []⟩

/-! ### Claim theorems -/

/-- C1: for every account name and every fetched payload of length at least
8 whose first 8 bytes differ from the account's discriminator,
`AccountClient.fetch` raises `AccountInvalidDiscriminator`, and the
discriminator comparison happens before any field of the payload is
decoded (the mismatch error is raised for an arbitrary remainder); when the
first 8 bytes match, the bytes are delegated to the account coder's
decode. -/
theorem c1_fetch_checks_discriminator_before_decoding
    (c : AccountClient) (s : List Char) (data : List Nat)
    (hdec : b64decode s = some data) (hlen : 8 ≤ data.length) :
    (data.take ACCOUNT_DISCRIMINATOR_SIZE ≠ account_discriminator c._idl_account.name →
        c.fetch (some s) = .error .invalidDiscriminator) ∧
      (data.take ACCOUNT_DISCRIMINATOR_SIZE = account_discriminator c._idl_account.name →
        c.fetch (some s) = accounts_coder_decode c._idl_account data) := by
  constructor
  · intro hne
    simp only [AccountClient.fetch, hdec]
    rw [if_pos (Ne.symm hne)]
  · intro heq
    simp only [AccountClient.fetch, hdec]
    rw [if_neg (fun hc => hc heq.symm)]

/-- Witness for C1: fetching 12 zero bytes as a `Counter` account fails
with the discriminator mismatch. -/
theorem c1_witness :
    demoClient.fetch (some "AAAAAAAAAAAAAAAA".data) =
      .error .invalidDiscriminator :=
  (c1_fetch_checks_discriminator_before_decoding demoClient
      "AAAAAAAAAAAAAAAA".data (List.replicate 12 0) (by decide) (by decide)).1
    (by decide)

/-- C2 (amended): `AccountClient.fetch` raises `AccountDoesNotExistError`
when the transport reports no value; when the transport returns data
shorter than 8 bytes, the truncated `data[0:8]` slice cannot equal the
8-byte discriminator, so fetch raises `AccountInvalidDiscriminator` — not a
decode-level error. -/
theorem c2_fetch_missing_and_short_data
    (c : AccountClient) (s : List Char) (data : List Nat)
    (hdec : b64decode s = some data) (hshort : data.length < 8) :
    c.fetch none = .error .accountDoesNotExist ∧
      c.fetch (some s) = .error .invalidDiscriminator := by
  constructor
  · rfl
  · have hdl : (account_discriminator c._idl_account.name).length = 8 := by
      simp [account_discriminator, ACCOUNT_DISCRIMINATOR_SIZE]
    have htl : (data.take ACCOUNT_DISCRIMINATOR_SIZE).length = data.length := by
      rw [List.length_take]
      simp [ACCOUNT_DISCRIMINATOR_SIZE]
      omega
    have hne : account_discriminator c._idl_account.name ≠
        data.take ACCOUNT_DISCRIMINATOR_SIZE := by
      intro hcontra
      rw [hcontra, htl] at hdl
      omega
    simp only [AccountClient.fetch, hdec]
    rw [if_pos hne]

/-- Counterexample for C2 as stated: a 3-byte payload (`"AAAA"` in base64)
does NOT produce a decode-level error — `fetch` raises
`AccountInvalidDiscriminator`. -/
theorem c2_counterexample :
    demoClient.fetch (some "AAAA".data) = .error .invalidDiscriminator ∧
      (Except.error AnchorError.invalidDiscriminator ≠
        (Except.error AnchorError.layoutDecodeError : Except AnchorError Container)) := by
  exact ⟨by decide, by decide⟩

/-- Witness for C2 (amended): the missing-account branch and the
short-data branch at a concrete 3-byte payload. -/
theorem c2_witness :
    demoClient.fetch none = .error .accountDoesNotExist ∧
      demoClient.fetch (some "AAAA".data) = .error .invalidDiscriminator :=
  c2_fetch_missing_and_short_data demoClient "AAAA".data [0, 0, 0]
    (by decide) (by decide)

/-- C3: with a buffer supplied, `AccountClient.all` hands the transport a
filter list whose first element is the offset-0 byte-comparison filter over
`discriminator ++ buffer` (rendered through base58); with the buffer
omitted, the first filter is over the bare discriminator; caller-supplied
memcmp filters follow the base filter in the caller's order. -/
theorem c3_all_base_filter_and_order
    (c : AccountClient) (b : List Nat) (mo : List MemcmpOpts)
    (ds : Option Int)
    (gpa : List MemcmpOpts → Option Int → List RpcKeyedAccount) :
    c.all_memcmp_opts (some b) (some mo) =
        MemcmpOpts.mk 0 (b58encode (account_discriminator c._idl_account.name ++ b)) :: mo ∧
      c.all_memcmp_opts none (some mo) =
        MemcmpOpts.mk 0 (b58encode (account_discriminator c._idl_account.name)) :: mo ∧
      c.all_memcmp_opts (some b) none =
        [MemcmpOpts.mk 0 (b58encode (account_discriminator c._idl_account.name ++ b))] ∧
      c.all gpa (some b) (some mo) ds =
        c.all_decode
          (gpa (MemcmpOpts.mk 0
              (b58encode (account_discriminator c._idl_account.name ++ b)) :: mo) ds) := by
  exact ⟨rfl, rfl, rfl, rfl⟩

/-- C4 (amended): `Program.fetch_idl` raises `IdlNotFoundError` exactly
when the transport reports no data at the derived IDL address; otherwise it
strips the fixed 8-byte discriminator prefix from the base64-decoded
payload and hands the decoded IDL account's data to `_pako_inflate`, whose
decompression uses zlib-format inflate (zlib header present, window size
15, i.e. `zlib.decompressobj(15)`) — not raw deflate. -/
theorem c4_fetch_idl_strip_and_inflate (v : Option (List Char)) :
    (Program.fetch_idl v = .error .idlNotFound ↔ v = none) ∧
      (∀ s decoded, v = some s → b64decode s = some decoded →
        Program.fetch_idl v =
          .ok ⟨decoded.drop ACCOUNT_DISCRIMINATOR_SIZE,
            _pako_inflate
              (decode_idl_account (decoded.drop ACCOUNT_DISCRIMINATOR_SIZE))⟩) ∧
      (∀ d : List Nat,
        (_pako_inflate d).config = InflateConfig.mk InflateFormat.zlib 15) := by
  refine ⟨?_, ?_, ?_⟩
  · cases v with
    | none => simp [Program.fetch_idl]
    | some s =>
      cases hb : b64decode s with
      | none => simp [Program.fetch_idl, hb]
      | some decoded => simp [Program.fetch_idl, hb]
  · intro s decoded hv hb
    subst hv
    simp [Program.fetch_idl, hb]
  · intro d
    show zlib_decompressobj 15 = InflateConfig.mk InflateFormat.zlib 15
    decide

/-- Counterexample for C4 as stated: `_pako_inflate` is configured with
`zlib.decompressobj(15)`, which selects the zlib container format (header
present), not raw deflate. -/
theorem c4_counterexample :
    (zlib_decompressobj 15).format = InflateFormat.zlib ∧
      (zlib_decompressobj 15).format ≠ InflateFormat.raw ∧
      Program.fetch_idl (some "AAAAAAAAAAA=".data) =
        .ok ⟨[], ⟨⟨InflateFormat.zlib, 15⟩, []⟩⟩ := by
  exact ⟨by decide, by decide, by decide⟩

/-- Witness for C4 (amended): the not-found branch at `none` and the
strip-and-inflate trace on a concrete 12-byte payload. -/
theorem c4_witness :
    Program.fetch_idl none = .error .idlNotFound ∧
      Program.fetch_idl (some "AAAAAAAAAAAAAAAA".data) =
        .ok ⟨(List.replicate 12 0).drop ACCOUNT_DISCRIMINATOR_SIZE,
          _pako_inflate
            (decode_idl_account
              ((List.replicate 12 0).drop ACCOUNT_DISCRIMINATOR_SIZE))⟩ :=
  ⟨(c4_fetch_idl_strip_and_inflate none).1.mpr rfl,
    (c4_fetch_idl_strip_and_inflate (some "AAAAAAAAAAAAAAAA".data)).2.1
      "AAAAAAAAAAAAAAAA".data (List.replicate 12 0) rfl (by decide)⟩

/-- C5 (amended): when the caller supplies a provider, `Program.__init__`
uses exactly that provider; when the caller omits it, the implicit
process-wide default `Provider.local()` is substituted. -/
theorem c5_provider_explicit_or_default
    (idl : Idl) (program_id : PublicKey) (p : Provider) :
    (Program.init idl program_id (some p)).provider = p ∧
      (Program.init idl program_id none).provider = Provider.local_ :=
  ⟨rfl, rfl⟩

/-- Counterexample for C5 as stated: constructing the program facade with
the provider omitted does not use a caller-passed provider — the implicit
default `Provider.local()` is substituted. -/
theorem c5_counterexample :
    (Program.init demoIdl demoPid none).provider = Provider.local_ ∧
      ¬ ∃ p : Provider, (none : Option Provider) = some p ∧
          (Program.init demoIdl demoPid none).provider = p := by
  constructor
  · rfl
  · rintro ⟨p, hp, _⟩
    cases hp

/-- C6: `AccountClient.size` is 8 plus the statically computed layout size;
`create_instruction` uses `size_override` as the space when it is nonzero
and the computed size otherwise, queries the rent-exemption balance at
exactly that space, and returns an instruction parameterized by the
provider wallet as payer, the signer's public key as the new address, the
space, the queried balance and the owning program id — without submitting
anything (the only transport function it receives is the rent query). -/
theorem c6_size_and_create_instruction
    (idl : Idl) (idl_account : IdlTypeDef) (coder : Coder)
    (program_id : PublicKey) (provider : Provider)
    (rent : Int → Int) (signer : Keypair) (size_override : Int) :
    (AccountClient.init idl idl_account coder program_id provider).size =
        8 + _account_size idl idl_account ∧
      (size_override ≠ 0 →
        (AccountClient.init idl idl_account coder program_id provider).create_instruction
            rent signer size_override =
          create_account
            ⟨provider.wallet.public_key, signer.public_key, size_override,
              rent size_override, program_id⟩) ∧
      (size_override = 0 →
        (AccountClient.init idl idl_account coder program_id provider).create_instruction
            rent signer size_override =
          create_account
            ⟨provider.wallet.public_key, signer.public_key,
              ((8 + _account_size idl idl_account : Nat) : Int),
              rent ((8 + _account_size idl idl_account : Nat) : Int),
              program_id⟩) := by
  refine ⟨rfl, ?_, ?_⟩
  · intro h
    simp only [AccountClient.create_instruction]
    rw [if_pos h]
    rfl
  · intro h
    subst h
    simp only [AccountClient.create_instruction]
    rw [if_neg (by simp)]
    rfl

/-- Witness for C6: the `Counter` client has size 16; a nonzero override of
100 and the default of 0 produce the corresponding concrete
instructions. -/
theorem c6_witness :
    demoClient.create_instruction (fun s => 2 * s) ⟨⟨9⟩⟩ 100 =
        create_account ⟨⟨3⟩, ⟨9⟩, 100, 200, ⟨7⟩⟩ ∧
      demoClient.create_instruction (fun s => 2 * s) ⟨⟨9⟩⟩ 0 =
        create_account ⟨⟨3⟩, ⟨9⟩, 16, 32, ⟨7⟩⟩ := by
  constructor
  · exact (c6_size_and_create_instruction demoIdl counterAcct demoCoder demoPid
        demoProvider (fun s => 2 * s) ⟨⟨9⟩⟩ 100).2.1 (by decide)
  · have h := (c6_size_and_create_instruction demoIdl counterAcct demoCoder demoPid
        demoProvider (fun s => 2 * s) ⟨⟨9⟩⟩ 0).2.2 rfl
    simpa using h

/-- C10: `create_instruction` distinguishes only zero from nonzero: a
negative `size_override` is used unchanged (no validation or clamping) as
the space passed to the rent query and placed in the returned
instruction. -/
theorem c10_negative_size_override_used_unchanged
    (c : AccountClient) (rent : Int → Int) (signer : Keypair)
    (size_override : Int) (h : size_override < 0) :
    c.create_instruction rent signer size_override =
      create_account
        ⟨c._provider.wallet.public_key, signer.public_key, size_override,
          rent size_override, c._program_id⟩ := by
  have hne : size_override ≠ 0 := by omega
  simp only [AccountClient.create_instruction]
  rw [if_pos hne]

/-- Witness for C10: a negative override of -5 flows unchanged into the
rent query and the instruction. -/
theorem c10_witness :
    demoClient.create_instruction (fun s => s + 1) ⟨⟨9⟩⟩ (-5) =
      create_account ⟨⟨3⟩, ⟨9⟩, -5, -4, ⟨7⟩⟩ := by
  have h := c10_negative_size_override_used_unchanged demoClient
    (fun s => s + 1) ⟨⟨9⟩⟩ (-5) (by decide)
  simpa using h

/-- C7: the namespace builder registers the four instruction namespaces
with identical key sets equal to the declared instruction names (no
renaming or casing transformation), and for each registered name the
transaction, rpc and simulate handles are all built around the single
instruction-builder instance registered under that name. -/
theorem c7_four_namespaces_aligned (idl : Idl) (coder : Coder)
    (program_id : PublicKey) (provider : Provider) :
    (dictKeys (_build_namespace idl coder program_id provider).rpc =
        dictKeys (_build_namespace idl coder program_id provider).instruction ∧
      dictKeys (_build_namespace idl coder program_id provider).transaction =
        dictKeys (_build_namespace idl coder program_id provider).instruction ∧
      dictKeys (_build_namespace idl coder program_id provider).simulate =
        dictKeys (_build_namespace idl coder program_id provider).instruction) ∧
      (∀ n, n ∈ dictKeys (_build_namespace idl coder program_id provider).instruction ↔
        n ∈ idl.instructions.map IdlInstruction.name) ∧
      (∀ n ixf,
        dictGet (_build_namespace idl coder program_id provider).instruction n =
            some ixf →
          ixf.idl_ix.name = n ∧
          dictGet (_build_namespace idl coder program_id provider).transaction n =
            some (build_transaction_fn ixf.idl_ix ixf) ∧
          dictGet (_build_namespace idl coder program_id provider).rpc n =
            some (build_rpc_item ixf.idl_ix (build_transaction_fn ixf.idl_ix ixf)
              (_parse_idl_errors idl) provider) ∧
          dictGet (_build_namespace idl coder program_id provider).simulate n =
            some (build_simulate_item ixf.idl_ix
              (build_transaction_fn ixf.idl_ix ixf)
              (_parse_idl_errors idl) provider coder program_id idl)) := by
  refine ⟨⟨?_, ?_, ?_⟩, ?_, ?_⟩
  · rw [build_namespace_rpc, build_namespace_instruction]
    exact dictKeys_nsFold_congr _ _ _ _ _ rfl
  · rw [build_namespace_transaction, build_namespace_instruction]
    exact dictKeys_nsFold_congr _ _ _ _ _ rfl
  · rw [build_namespace_simulate, build_namespace_instruction]
    exact dictKeys_nsFold_congr _ _ _ _ _ rfl
  · intro n
    rw [build_namespace_instruction, mem_dictKeys_nsFold]
    simp [dictKeys]
  · intro n ixf h
    rw [build_namespace_instruction, dictGet_nsFold] at h
    cases hl : lastNamed n idl.instructions with
    | none =>
      rw [hl] at h
      simp [dictGet] at h
    | some j =>
      rw [hl] at h
      simp only [Option.some.injEq] at h
      subst h
      refine ⟨lastNamed_name n idl.instructions j hl, ?_, ?_, ?_⟩
      · rw [build_namespace_transaction, dictGet_nsFold, hl]
      · rw [build_namespace_rpc, dictGet_nsFold, hl]
      · rw [build_namespace_simulate, dictGet_nsFold, hl]

/-- Witness for C7: in the scenario schema the name `initialize` is
registered, and its transaction handle wraps the one registered
instruction builder. -/
theorem c7_witness :
    ("initialize" ∈
        dictKeys (_build_namespace demoIdl demoCoder demoPid demoProvider).instruction) ∧
      dictGet (_build_namespace demoIdl demoCoder demoPid demoProvider).transaction
          "initialize" =
        some (build_transaction_fn demoIx (InstructionFn.mk demoIx demoPid)) := by
  constructor
  · exact ((c7_four_namespaces_aligned demoIdl demoCoder demoPid demoProvider).2.1
        "initialize").mpr (by decide)
  · exact ((c7_four_namespaces_aligned demoIdl demoCoder demoPid demoProvider).2.2
        "initialize" (InstructionFn.mk demoIx demoPid) (by decide)).2.1

/-- C8: `AccountClient.all` decodes every record the batched transport call
returns and yields one (address, decoded value) pair per record in the
transport's order; a decode failure on any single record fails the whole
call with that record's error instead of skipping it or returning partial
results. -/
theorem c8_all_decode_order_and_errors (c : AccountClient)
    (resp : List RpcKeyedAccount) :
    ((∀ r ∈ resp, ∃ pa, c.decode_record r = .ok pa) →
        ∃ out, c.all_decode resp = .ok out ∧ out.length = resp.length ∧
          ∀ (i : Nat) (hi : i < resp.length) (ho : i < out.length),
            c.decode_record (resp.get ⟨i, hi⟩) = .ok (out.get ⟨i, ho⟩)) ∧
      (∀ pre r post e, resp = pre ++ r :: post →
        c.decode_record r = .error e →
        (∀ r' ∈ pre, ∃ pa, c.decode_record r' = .ok pa) →
        c.all_decode resp = .error e) ∧
      (∀ (gpa : List MemcmpOpts → Option Int → List RpcKeyedAccount)
          (buffer : Option (List Nat)) (memcmp_opts : Option (List MemcmpOpts))
          (data_size : Option Int),
        c.all gpa buffer memcmp_opts data_size =
          c.all_decode (gpa (c.all_memcmp_opts buffer memcmp_opts) data_size)) := by
  refine ⟨?_, ?_, ?_⟩
  · induction resp with
    | nil =>
      intro _
      exact ⟨[], rfl, rfl, fun i hi => absurd hi (by simp)⟩
    | cons r rest ih =>
      intro hall
      obtain ⟨pa, hpa⟩ := hall r (List.mem_cons_self r rest)
      obtain ⟨out, hout, hlen, hidx⟩ :=
        ih (fun r' hr' => hall r' (List.mem_cons_of_mem r hr'))
      refine ⟨pa :: out, ?_, by simpa using hlen, ?_⟩
      · simp [AccountClient.all_decode, hpa, hout]
      · intro i hi ho
        cases i with
        | zero => simpa using hpa
        | succ n =>
          have hi' : n < rest.length := by simpa using hi
          have ho' : n < out.length := by simpa using ho
          simpa using hidx n hi' ho'
  · intro pre r post e hresp herr hok
    subst hresp
    revert hok
    induction pre with
    | nil =>
      intro _
      simp [AccountClient.all_decode, herr]
    | cons p pre' ih =>
      intro hok
      obtain ⟨pa, hpa⟩ := hok p (List.mem_cons_self p pre')
      have ih' := ih (fun r' hr' => hok r' (List.mem_cons_of_mem p hr'))
      simp [List.cons_append, AccountClient.all_decode, hpa, ih']
  · intro gpa buffer memcmp_opts data_size
    rfl

/-- Witness for C8: a one-record response whose record fails decoding fails
the whole call with that record's error, and the empty response decodes to
the empty result. -/
theorem c8_witness :
    demoClient.all_decode [⟨⟨1⟩, "AAAA".data⟩] = .error .invalidDiscriminator ∧
      demoClient.all_decode [] = .ok [] := by
  constructor
  · exact (c8_all_decode_order_and_errors demoClient [⟨⟨1⟩, "AAAA".data⟩]).2.1
      [] ⟨⟨1⟩, "AAAA".data⟩ [] .invalidDiscriminator rfl (by decide) (by simp)
  · obtain ⟨out, hout, hlen, _⟩ :=
      (c8_all_decode_order_and_errors demoClient []).1 (by simp)
    cases out with
    | nil => exact hout
    | cons a l => simp at hlen

/-- C9: when the schema's instruction list contains two definitions with
the same declared name, the namespace builder registers only the handles
built from the later definition in all four instruction namespaces (the
earlier registration is overwritten), and each namespace ends with exactly
one entry per distinct declared name. -/
theorem c9_duplicate_name_later_definition_wins (coder : Coder)
    (program_id : PublicKey) (provider : Provider)
    (l1 l2 : List IdlInstruction) (ix1 ix2 : IdlInstruction)
    (accs typs : List IdlTypeDef) (errs : List IdlErrorCode)
    (h : ix1.name = ix2.name) :
    dictGet (_build_namespace ⟨l1 ++ ix1 :: (l2 ++ [ix2]), accs, typs, errs⟩
          coder program_id provider).instruction ix1.name =
        some (InstructionFn.mk ix2 program_id) ∧
      dictGet (_build_namespace ⟨l1 ++ ix1 :: (l2 ++ [ix2]), accs, typs, errs⟩
          coder program_id provider).transaction ix1.name =
        some (build_transaction_fn ix2 (InstructionFn.mk ix2 program_id)) ∧
      dictGet (_build_namespace ⟨l1 ++ ix1 :: (l2 ++ [ix2]), accs, typs, errs⟩
          coder program_id provider).rpc ix1.name =
        some (build_rpc_item ix2
          (build_transaction_fn ix2 (InstructionFn.mk ix2 program_id))
          (_parse_idl_errors ⟨l1 ++ ix1 :: (l2 ++ [ix2]), accs, typs, errs⟩)
          provider) ∧
      dictGet (_build_namespace ⟨l1 ++ ix1 :: (l2 ++ [ix2]), accs, typs, errs⟩
          coder program_id provider).simulate ix1.name =
        some (build_simulate_item ix2
          (build_transaction_fn ix2 (InstructionFn.mk ix2 program_id))
          (_parse_idl_errors ⟨l1 ++ ix1 :: (l2 ++ [ix2]), accs, typs, errs⟩)
          provider coder program_id ⟨l1 ++ ix1 :: (l2 ++ [ix2]), accs, typs, errs⟩) ∧
      (dictKeys (_build_namespace ⟨l1 ++ ix1 :: (l2 ++ [ix2]), accs, typs, errs⟩
          coder program_id provider).instruction).Nodup := by
  have hlast : lastNamed ix1.name (l1 ++ ix1 :: (l2 ++ [ix2])) = some ix2 := by
    have h1 : lastNamed ix1.name [ix2] = some ix2 := by
      simp [lastNamed, ← h]
    have h2 : lastNamed ix1.name (l2 ++ [ix2]) = some ix2 := by
      rw [lastNamed_append, h1]
    have h3 : lastNamed ix1.name (ix1 :: (l2 ++ [ix2])) = some ix2 := by
      simp only [lastNamed, h2]
    rw [lastNamed_append, h3]
  refine ⟨?_, ?_, ?_, ?_, ?_⟩
  · rw [build_namespace_instruction, dictGet_nsFold, hlast]
  · rw [build_namespace_transaction, dictGet_nsFold, hlast]
  · rw [build_namespace_rpc, dictGet_nsFold, hlast]
  · rw [build_namespace_simulate, dictGet_nsFold, hlast]
  · rw [build_namespace_instruction]
    exact nodup_dictKeys_nsFold _ _ _ (by simp [dictKeys])

/-- Witness for C9: two `foo` instructions with different bodies — the
lookup returns the handle built from the second definition. -/
theorem c9_witness :
    dictGet (_build_namespace
          ⟨[] ++ (⟨"foo", [], ["a"]⟩ : IdlInstruction) ::
            ([] ++ [(⟨"foo", [⟨"x", IdlType.u8⟩], []⟩ : IdlInstruction)]),
            [], [], []⟩
          demoCoder demoPid demoProvider).instruction "foo" =
      some (InstructionFn.mk ⟨"foo", [⟨"x", IdlType.u8⟩], []⟩ demoPid) :=
  (c9_duplicate_name_later_definition_wins demoCoder demoPid demoProvider
      [] [] ⟨"foo", [], ["a"]⟩ ⟨"foo", [⟨"x", IdlType.u8⟩], []⟩ [] [] []
      rfl).1

end AnchorPy
